import Mathlib

/-!
Verification of the persistent task store of `src/todo-server.js`
(class `TodoStore` and the `createTask` / `getTask` / `updateTask` /
`deleteTask` / `filterTasks` tool handlers built on it).

The store keeps task records in JSON shard files, one shard per sanitized
project name plus a default shard.  Each public operation reads whole
shards, edits them in memory and writes whole shards back.  The embedding
below models a shard file as a name together with raw content that is
either a decodable record list or corrupt, and models every store
operation as a pure function on the list of shards (the enumeration order
of the list is the directory-listing order used by the scans).  Timestamps
are abstracted to a `Nat` clock value passed in by the caller, and the
`Math.random()` stream feeding the identifier generator is passed in as an
explicit function from draw index to value.
-/

namespace TodoServer

/-- A task record, as produced by `TodoStore.createTodo` in
`src/todo-server.js`.  In the JS source every field other than the three
the store itself assigns (`id`, `createdAt`, `updatedAt`) is spread in
from the caller-supplied object and may therefore be absent, so those
fields are `Option`-valued; `status`/`priority` are the raw strings the
JS code stores. -/
structure Todo where
  id : String
  content : Option String
  status : Option String
  priority : Option String
  project : Option String
  conversation : Option String
  createdAt : Nat
  updatedAt : Nat
deriving DecidableEq, Repr

/-- The caller-supplied field object handed to `TodoStore.createTodo` and
(after the tool handler drops `undefined` entries) to
`TodoStore.updateTodo`.  `none` means the field is absent. -/
structure TodoData where
  content : Option String
  status : Option String
  priority : Option String
  project : Option String
  conversation : Option String
deriving DecidableEq, Repr

/-- Raw persisted content of one shard file: either a decodable record
list or undecodable bytes (`JSON.parse` failure). -/
inductive RawShard where
  | good : List Todo → RawShard
  | corrupt : RawShard
deriving DecidableEq, Repr

/-- One shard file of the store: `name` is the file name without the
`.json` suffix. -/
structure Shard where
  name : String
  content : RawShard
deriving DecidableEq, Repr

/-- `TodoStore.readTodosFile`: parse a shard file.  A missing file is
modelled as the shard being absent from the store list; undecodable
content is caught, logged and turned into the empty list (`catch` branch
returns `[]`). -/
def readTodosFile : RawShard → List Todo
  | RawShard.good ts => ts
  | RawShard.corrupt => []

/-- Character class of the sanitizer regex `[^a-zA-Z0-9]` in
`TodoStore.createTodo`: `true` for the characters the regex leaves
untouched. -/
def isShardSafe (c : Char) : Bool :=
  (c ≥ 'a' && c ≤ 'z') || (c ≥ 'A' && c ≤ 'Z') || (c ≥ '0' && c ≤ '9')

/-- `project.replace(/[^a-zA-Z0-9]/g, '-')` from `TodoStore.createTodo`. -/
def sanitizeProject (p : String) : String :=
  String.mk (p.data.map (fun c => if isShardSafe c then c else '-'))

/-- Shard resolution in `TodoStore.createTodo`: a truthy `project`
(present and non-empty) selects the sanitized project shard, anything
else the default shard (`default.json`). -/
def shardFor (project : Option String) : String :=
  match project with
  | some p => if p = "" then "default" else sanitizeProject p
  | none => "default"

/-- Read one shard of the store by name (first directory entry with that
name; a missing shard reads as empty, matching the `existsSync` guard in
`readTodosFile`). -/
def readShard : List Shard → String → List Todo
  | [], _ => []
  | sh :: rest, name =>
    if sh.name = name then readTodosFile sh.content else readShard rest name

/-- `TodoStore.writeTodosFile` at the store level: replace the content of
the named shard file (or create the file if absent).  The write happens
unconditionally — nothing checks whether the previous content was
decodable. -/
def writeShard : List Shard → String → List Todo → List Shard
  | [], name, ts => [⟨name, RawShard.good ts⟩]
  | sh :: rest, name, ts =>
    if sh.name = name then ⟨name, RawShard.good ts⟩ :: rest
    else sh :: writeShard rest name ts

/-- `TodoStore.getAllTodos`: concatenate every shard file in directory
order. -/
def getAllTodos : List Shard → List Todo
  | [] => []
  | sh :: rest => readTodosFile sh.content ++ getAllTodos rest

/-- All identifiers currently stored, across every shard. -/
def storeIds (store : List Shard) : List String :=
  (getAllTodos store).map (fun t => t.id)

/-- `TodoStore.getTodoById`: scan the shard files in directory order and
return the first record whose `id` matches. -/
def getTodoById : List Shard → String → Option Todo
  | [], _ => none
  | sh :: rest, id =>
    match (readTodosFile sh.content).find? (fun t => t.id = id) with
    | some t => some t
    | none => getTodoById rest id

/-- `TodoStore.createTodo`: resolve the shard from `project`, read it,
append the new record built from the assigned id, the two timestamps and
the spread of the caller-supplied fields, and write the shard back.  No
field is validated and no failure path exists: the function always
returns the created record. -/
def createTodo (uuid : String) (now : Nat) (d : TodoData) (store : List Shard) :
    Todo × List Shard :=
  let name := shardFor d.project
  let todos := readShard store name
  let newTodo : Todo :=
    ⟨uuid, d.content, d.status, d.priority, d.project, d.conversation, now, now⟩
  (newTodo, writeShard store name (todos ++ [newTodo]))

/-- Input of the `createTask` tool: the schema requires `content`
(`server.schema.string()`), gives `status`/`priority` defaults
(`.default('pending')` / `.default('medium')`) and leaves
`project`/`conversation` optional. -/
structure CreateInput where
  content : String
  status : Option String
  priority : Option String
  project : Option String
  conversation : Option String
deriving DecidableEq, Repr

/-- The `createTask` tool handler: the schema-applied defaults for
`status`/`priority` composed with `TodoStore.createTodo`. -/
def createTask (uuid : String) (now : Nat) (inp : CreateInput) (store : List Shard) :
    Todo × List Shard :=
  createTodo uuid now
    ⟨some inp.content, some (inp.status.getD "pending"),
     some (inp.priority.getD "medium"), inp.project, inp.conversation⟩ store

/-- Field selection of the JS object spread `{...old, ...updates}`: a key
present in `updates` wins, an absent key keeps the old value. -/
def pick (upd old : Option String) : Option String :=
  match upd with
  | some v => some v
  | none => old

/-- The merged record built by `TodoStore.updateTodo`:
`{...todos[index], ...updates, updatedAt: new Date().toISOString()}`.
The tool handler only ever places the five mutable fields in `updates`,
so `id` and `createdAt` are copied from the old record unchanged. -/
def mergeTodo (u : TodoData) (now : Nat) (t : Todo) : Todo :=
  { t with
    content := pick u.content t.content
    status := pick u.status t.status
    priority := pick u.priority t.priority
    project := pick u.project t.project
    conversation := pick u.conversation t.conversation
    updatedAt := now }

/-- Replace the first record with the given id (`todos[index] = updated`
after `findIndex`). -/
def replaceFirst (id : String) (t' : Todo) : List Todo → List Todo
  | [] => []
  | t :: ts => if t.id = id then t' :: ts else t :: replaceFirst id t' ts

/-- `TodoStore.updateTodo` composed with the `updateTask` handler that
drops `undefined` fields: scan the shard files in order, and in the first
shard whose record list contains the id, overwrite the first matching
record with the merge and write that shard back.  Later shards are not
touched; if no shard matches, nothing is written and `null` is
returned. -/
def updateTodo (now : Nat) (id : String) (u : TodoData) :
    List Shard → Option Todo × List Shard
  | [] => (none, [])
  | sh :: rest =>
    let todos := readTodosFile sh.content
    match todos.find? (fun t => t.id = id) with
    | some t =>
      let t' := mergeTodo u now t
      (some t', ⟨sh.name, RawShard.good (replaceFirst id t' todos)⟩ :: rest)
    | none =>
      ((updateTodo now id u rest).1, sh :: (updateTodo now id u rest).2)

/-- Result of `TodoStore.deleteTodo`: `{id, deleted: true}` for a hard
delete, the updated (cancelled) record for a soft delete. -/
inductive DeleteResult where
  | removed : String → DeleteResult
  | softened : Todo → DeleteResult
deriving DecidableEq, Repr

/-- `TodoStore.deleteTodo`: scan the shard files in order; in the first
shard containing the id either splice the first matching record out
(hard) or set its `status` to `cancelled` and refresh `updatedAt` (soft),
then write that shard back.  `todos.splice(index, 1)` with
`index = findIndex` removes exactly the first match, i.e. `List.eraseP`. -/
def deleteTodo (now : Nat) (id : String) (hard : Bool) :
    List Shard → Option DeleteResult × List Shard
  | [] => (none, [])
  | sh :: rest =>
    let todos := readTodosFile sh.content
    match todos.find? (fun t => t.id = id) with
    | some t =>
      if hard then
        (some (DeleteResult.removed id),
         ⟨sh.name, RawShard.good (todos.eraseP (fun t => t.id = id))⟩ :: rest)
      else
        let t' := { t with status := some "cancelled", updatedAt := now }
        (some (DeleteResult.softened t'),
         ⟨sh.name, RawShard.good (replaceFirst id t' todos)⟩ :: rest)
    | none =>
      ((deleteTodo now id hard rest).1, sh :: (deleteTodo now id hard rest).2)

/-- Filter criteria of `TodoStore.filterTodos`; `none` means the key is
absent. -/
structure Filters where
  status : Option String
  priority : Option String
  project : Option String
  conversation : Option String
  keyword : Option String
deriving DecidableEq, Repr

/-- `s.toLowerCase()` (ASCII case folding, which is all the JS code
relies on for its ASCII keywords). -/
def lowerStr (s : String) : String :=
  String.mk (s.data.map Char.toLower)

/-- Whether `pat` is an initial segment of `s` (character lists). -/
def leadsWith : List Char → List Char → Bool
  | [], _ => true
  | _ :: _, [] => false
  | p :: ps, c :: cs => p == c && leadsWith ps cs

/-- Whether `pat` occurs contiguously inside `s` (character lists). -/
def occursIn : List Char → List Char → Bool
  | pat, [] => pat.isEmpty
  | pat, c :: cs => leadsWith pat (c :: cs) || occursIn pat cs

/-- `s.includes(pat)` on lower-cased strings: the keyword test
`todo.content.toLowerCase().includes(filters.keyword.toLowerCase())`. -/
def jsIncludes (s pat : String) : Bool :=
  occursIn (lowerStr pat).data (lowerStr s).data

/-- One equality-criterion line of `TodoStore.filterTodos`, e.g.
`if (filters.status && todo.status !== filters.status) return false`.
The criterion only constrains when it is truthy, i.e. a present,
non-empty string. -/
def critOk (crit field : Option String) : Bool :=
  match crit with
  | none => true
  | some s => if s = "" then true else decide (field = some s)

/-- The keyword line of `TodoStore.filterTodos`.  A record created
through the `createTask` tool always has a `content` string; for the
degenerate records the raw store can hold without one, the JS code would
throw inside `filter`, and the embedding reads the content as `""` (the
theorems below only quantify over stores whose records went through the
tool, where the two agree). -/
def keywordOk (crit : Option String) (content : Option String) : Bool :=
  match crit with
  | none => true
  | some k => if k = "" then true else jsIncludes (content.getD "") k

/-- The record predicate of `TodoStore.filterTodos`. -/
def matchesFilters (f : Filters) (t : Todo) : Bool :=
  critOk f.status t.status && critOk f.priority t.priority &&
  critOk f.project t.project && critOk f.conversation t.conversation &&
  keywordOk f.keyword t.content

/-- `TodoStore.filterTodos`: filter the concatenation of all shards. -/
def filterTodos (f : Filters) (store : List Shard) : List Todo :=
  (getAllTodos store).filter (matchesFilters f)

/-- The equality criterion as the spec words it (claim C7): a *supplied*
criterion always constrains by exact equality, even when it is the empty
string.  Kept separate from `critOk` to compare the two. -/
def critOkSpec (crit field : Option String) : Bool :=
  match crit with
  | none => true
  | some s => decide (field = some s)

/-- The keyword criterion as the spec words it: any supplied keyword
constrains by case-insensitive containment. -/
def keywordOkSpec (crit : Option String) (content : Option String) : Bool :=
  match crit with
  | none => true
  | some k => jsIncludes (content.getD "") k

/-- The record predicate as the spec words it (claim C7). -/
def matchesSpec (f : Filters) (t : Todo) : Bool :=
  critOkSpec f.status t.status && critOkSpec f.priority t.priority &&
  critOkSpec f.project t.project && critOkSpec f.conversation t.conversation &&
  keywordOkSpec f.keyword t.content

/-- `v.toString(16)` for a single random draw `v < 16` in
`TodoStore.generateUUID` (the catch-all case is unreachable because every
draw is reduced mod 16). -/
def hexDigit (n : Nat) : Char :=
  "0123456789abcdef".data.getD n '0'

/-- The template replacement of `TodoStore.generateUUID`:
`'xxxxxxxx-xxxx-4xxx-yxxx-xxxxxxxxxxxx'.replace(/[xy]/g, cb)`, where the
callback draws `r = Math.random() * 16 | 0` per match and emits
`r.toString(16)` for `x` and `(r & 0x3 | 0x8).toString(16)` for `y`.
`rnd i % 16` models the i-th draw of `Math.random() * 16 | 0`. -/
def uuidChars : List Char → (Nat → Nat) → Nat → List Char
  | [], _, _ => []
  | c :: cs, rnd, i =>
    if c = 'x' then hexDigit (rnd i % 16) :: uuidChars cs rnd (i + 1)
    else if c = 'y' then hexDigit ((rnd i % 16) &&& 3 ||| 8) :: uuidChars cs rnd (i + 1)
    else c :: uuidChars cs rnd i

/-- `TodoStore.generateUUID` applied to the random draw stream `rnd`. -/
def generateUUID (rnd : Nat → Nat) : String :=
  String.mk (uuidChars "xxxxxxxx-xxxx-4xxx-yxxx-xxxxxxxxxxxx".data rnd 0)

/-- A sequence of `createTask` store operations: the j-th call consumes
the draw stream `rnd j` for its identifier. -/
def runCreatesRnd (now : Nat) (rnd : Nat → Nat → Nat) :
    List TodoData → Nat → List Shard → List Todo × List Shard
  | [], _, store => ([], store)
  | d :: rest, j, store =>
    let step := createTodo (generateUUID (rnd j)) now d store
    let next := runCreatesRnd now rnd rest (j + 1) step.2
    (step.1 :: next.1, next.2)

/-- The identifiers such a sequence of calls generates. -/
def genIds (rnd : Nat → Nat → Nat) : List TodoData → Nat → List String
  | [], _ => []
  | _ :: rest, j => generateUUID (rnd j) :: genIds rnd rest (j + 1)

/-- The lowercase hexadecimal digits. -/
def hexChars : List Char :=
  "0123456789abcdef".data

/-- The UUID version-4 shape stated by claim C10: 36 characters, hyphens
at indices 8, 13, 18 and 23, the character `4` at index 14, one of
`8/9/a/b` at index 19, and a lowercase hexadecimal digit everywhere
else. -/
def isUuidV4 (s : String) : Bool :=
  match s.data with
  | c0 :: c1 :: c2 :: c3 :: c4 :: c5 :: c6 :: c7 :: '-' :: c9 :: c10 :: c11 :: c12 ::
    '-' :: '4' :: c15 :: c16 :: c17 :: '-' :: c19 :: c20 :: c21 :: c22 :: '-' ::
    c24 :: c25 :: c26 :: c27 :: c28 :: c29 :: c30 :: c31 :: c32 :: c33 :: c34 :: c35 :: [] =>
    hexChars.contains c0 && hexChars.contains c1 && hexChars.contains c2 &&
    hexChars.contains c3 && hexChars.contains c4 && hexChars.contains c5 &&
    hexChars.contains c6 && hexChars.contains c7 && hexChars.contains c9 &&
    hexChars.contains c10 && hexChars.contains c11 && hexChars.contains c12 &&
    hexChars.contains c15 && hexChars.contains c16 && hexChars.contains c17 &&
    (c19 == '8' || c19 == '9' || c19 == 'a' || c19 == 'b') &&
    hexChars.contains c20 && hexChars.contains c21 && hexChars.contains c22 &&
    hexChars.contains c24 && hexChars.contains c25 && hexChars.contains c26 &&
    hexChars.contains c27 && hexChars.contains c28 && hexChars.contains c29 &&
    hexChars.contains c30 && hexChars.contains c31 && hexChars.contains c32 &&
    hexChars.contains c33 && hexChars.contains c34 && hexChars.contains c35
  | _ => false

/-- File-system operations a shard write can issue, for stating how
`TodoStore.writeTodosFile` publishes its data (claim C9). -/
inductive FsOp where
  | writeWholeFile : String → List Todo → FsOp
  | writeTempFile : String → List Todo → FsOp
  | renameFile : String → String → FsOp
deriving DecidableEq, Repr

/-- The operation trace of `TodoStore.writeTodosFile(filePath, todos)`:
a single `fs.writeFile(filePath, JSON.stringify(todos, null, 2))`, i.e.
one in-place whole-file write and nothing else. -/
def writeTodosFileOps (path : String) (todos : List Todo) : List FsOp :=
  [FsOp.writeWholeFile path todos]

/-- Modelled from the spec: the atomic-replace write the spec requires
(write to a temporary location, then atomically publish it by rename).
No such code exists in `src/todo-server.js`; this definition follows the
words of spec section 4.2 for comparison with `writeTodosFileOps`. -/
def atomicWriteOps (path : String) (todos : List Todo) : List FsOp :=
  [FsOp.writeTempFile (path ++ ".tmp") todos,
   FsOp.renameFile (path ++ ".tmp") path]

/-- Whether a file-system operation is a rename. -/
def isRenameOp : FsOp → Bool
  | FsOp.renameFile _ _ => true
  | _ => false

/-- Whether a file-system operation writes a temporary location. -/
def isTempWriteOp : FsOp → Bool
  | FsOp.writeTempFile _ _ => true
  | _ => false

/-! ### Basic facts about the shard scans -/

theorem getTodoById_eq_find (id : String) :
    ∀ store : List Shard,
      getTodoById store id = (getAllTodos store).find? (fun t => t.id = id)
  | [] => rfl
  | sh :: rest => by
    simp only [getTodoById, getAllTodos, List.find?_append]
    cases h : (readTodosFile sh.content).find? (fun t => t.id = id) with
    | some t => simp [h]
    | none => simp [h, getTodoById_eq_find id rest]

theorem getTodoById_eq_none (store : List Shard) (id : String)
    (h : ∀ t ∈ getAllTodos store, t.id ≠ id) : getTodoById store id = none := by
  rw [getTodoById_eq_find]
  exact List.find?_eq_none.mpr (fun t ht => by simpa using h t ht)

theorem readShard_writeShard (ts : List Todo) :
    ∀ (store : List Shard) (name : String),
      readShard (writeShard store name ts) name = ts
  | [], name => by simp [writeShard, readShard, readTodosFile]
  | sh :: rest, name => by
    by_cases h : sh.name = name
    · simp [writeShard, readShard, h, readTodosFile]
    · simp [writeShard, readShard, h, readShard_writeShard ts rest name]

theorem getAllTodos_writeShard_append (t : Todo) :
    ∀ (store : List Shard) (name : String),
      List.Perm (getAllTodos (writeShard store name (readShard store name ++ [t])))
        (t :: getAllTodos store)
  | [], name => by simp [writeShard, readShard, getAllTodos, readTodosFile]
  | sh :: rest, name => by
    by_cases h : sh.name = name
    · simp only [writeShard, readShard, if_pos h, getAllTodos, readTodosFile,
        List.append_assoc, List.singleton_append]
      exact List.perm_middle
    · simp only [writeShard, readShard, if_neg h, getAllTodos]
      exact List.Perm.trans
        (List.Perm.append_left _ (getAllTodos_writeShard_append t rest name))
        List.perm_middle

theorem createTodo_perm (uuid : String) (now : Nat) (d : TodoData) (store : List Shard) :
    List.Perm (getAllTodos (createTodo uuid now d store).2)
      ((createTodo uuid now d store).1 :: getAllTodos store) :=
  getAllTodos_writeShard_append _ store _

theorem createTodo_mem (uuid : String) (now : Nat) (d : TodoData) (store : List Shard) :
    (createTodo uuid now d store).1 ∈ getAllTodos (createTodo uuid now d store).2 :=
  (createTodo_perm uuid now d store).mem_iff.mpr (List.mem_cons_self _ _)

theorem find?_replaceFirst (id : String) (t' : Todo) (h : t'.id = id) :
    ∀ (l : List Todo) (t : Todo), l.find? (fun x => x.id = id) = some t →
      (replaceFirst id t' l).find? (fun x => x.id = id) = some t'
  | [], t => by simp
  | x :: xs, t => by
    by_cases hx : x.id = id
    · intro _
      simp [replaceFirst, hx, List.find?_cons_of_pos, h]
    · intro hf
      rw [List.find?_cons_of_neg _ (by simpa using hx)] at hf
      simp only [replaceFirst, if_neg hx]
      rw [List.find?_cons_of_neg _ (by simpa using hx)]
      exact find?_replaceFirst id t' h xs t hf

theorem find?_eraseP_of_nodup (id : String) :
    ∀ l : List Todo, (l.map (fun t => t.id)).Nodup →
      (l.eraseP (fun x => x.id = id)).find? (fun x => x.id = id) = none
  | [], _ => rfl
  | x :: xs, hn => by
    have hxs : (xs.map (fun t => t.id)).Nodup := (List.nodup_cons.mp hn).2
    have hxm : x.id ∉ xs.map (fun t => t.id) := (List.nodup_cons.mp hn).1
    by_cases hx : x.id = id
    · rw [List.eraseP_cons_of_pos (by simpa using hx)]
      refine List.find?_eq_none.mpr (fun y hy => ?_)
      simp only [decide_eq_true_eq]
      intro hyid
      exact hxm (by rw [hx, ← hyid]; exact List.mem_map_of_mem _ hy)
    · rw [List.eraseP_cons_of_neg (by simpa using hx)]
      rw [List.find?_cons_of_neg _ (by simpa using hx)]
      exact find?_eraseP_of_nodup id xs hxs

theorem mergeTodo_id (u : TodoData) (now : Nat) (t : Todo) :
    (mergeTodo u now t).id = t.id := rfl

theorem readTodosFile_good (ts : List Todo) : readTodosFile (RawShard.good ts) = ts := rfl

theorem getTodoById_createTodo_fresh (uuid : String) (now : Nat) (d : TodoData)
    (store : List Shard) (hfresh : ∀ t ∈ getAllTodos store, t.id ≠ uuid) :
    getTodoById (createTodo uuid now d store).2 uuid =
      some (createTodo uuid now d store).1 := by
  rw [getTodoById_eq_find]
  have hperm := createTodo_perm uuid now d store
  have hmem : (createTodo uuid now d store).1 ∈ getAllTodos (createTodo uuid now d store).2 :=
    hperm.mem_iff.mpr (List.mem_cons_self _ _)
  cases hf : (getAllTodos (createTodo uuid now d store).2).find? (fun t => t.id = uuid) with
  | none =>
    have hid : (createTodo uuid now d store).1.id = uuid := rfl
    exact absurd hid (by simpa using List.find?_eq_none.mp hf _ hmem)
  | some x =>
    have hx : x.id = uuid := by simpa using List.find?_some hf
    have hxm := hperm.mem_iff.mp (List.mem_of_find?_eq_some hf)
    rcases List.mem_cons.mp hxm with h | h
    · rw [h]
    · exact absurd hx (hfresh x h)

theorem updateTodo_of_found (now : Nat) (id : String) (u : TodoData) :
    ∀ (store : List Shard) (t : Todo), getTodoById store id = some t →
      (updateTodo now id u store).1 = some (mergeTodo u now t) ∧
      getTodoById (updateTodo now id u store).2 id = some (mergeTodo u now t)
  | [], t => by simp [getTodoById]
  | sh :: rest, t => by
    intro h
    cases hf : (readTodosFile sh.content).find? (fun x => x.id = id) with
    | some t0 =>
      have ht : t = t0 := by
        simp only [getTodoById, hf] at h
        exact (Option.some_inj.mp h).symm
      subst ht
      have hid : (mergeTodo u now t).id = id := by
        rw [mergeTodo_id]
        simpa using List.find?_some hf
      have hrw : (updateTodo now id u (sh :: rest)).2 =
          ⟨sh.name, RawShard.good
            (replaceFirst id (mergeTodo u now t) (readTodosFile sh.content))⟩ :: rest := by
        simp [updateTodo, hf]
      constructor
      · simp [updateTodo, hf]
      · rw [hrw]
        simp only [getTodoById, readTodosFile_good]
        rw [find?_replaceFirst id _ hid _ _ hf]
    | none =>
      have h' : getTodoById rest id = some t := by
        simpa only [getTodoById, hf] using h
      have ih := updateTodo_of_found now id u rest t h'
      constructor
      · simpa [updateTodo, hf] using ih.1
      · simpa only [updateTodo, hf, getTodoById] using ih.2

theorem deleteTodo_not_found (now : Nat) (id : String) (hard : Bool) :
    ∀ store : List Shard, getTodoById store id = none →
      deleteTodo now id hard store = (none, store)
  | [] => by simp [deleteTodo]
  | sh :: rest => by
    intro h
    cases hf : (readTodosFile sh.content).find? (fun x => x.id = id) with
    | some t0 =>
      simp only [getTodoById, hf] at h
      exact Option.noConfusion h
    | none =>
      have h' : getTodoById rest id = none := by
        simpa only [getTodoById, hf] using h
      have ih := deleteTodo_not_found now id hard rest h'
      simp [deleteTodo, hf, ih]

theorem deleteTodo_soft_of_found (now : Nat) (id : String) :
    ∀ (store : List Shard) (t : Todo), getTodoById store id = some t →
      (deleteTodo now id false store).1 =
        some (DeleteResult.softened { t with status := some "cancelled", updatedAt := now }) ∧
      getTodoById (deleteTodo now id false store).2 id =
        some { t with status := some "cancelled", updatedAt := now }
  | [], t => by simp [getTodoById]
  | sh :: rest, t => by
    intro h
    cases hf : (readTodosFile sh.content).find? (fun x => x.id = id) with
    | some t0 =>
      have ht : t = t0 := by
        simp only [getTodoById, hf] at h
        exact (Option.some_inj.mp h).symm
      subst ht
      have hid : ({ t with status := some "cancelled", updatedAt := now } : Todo).id = id := by
        simpa using List.find?_some hf
      have hrw : (deleteTodo now id false (sh :: rest)).2 =
          ⟨sh.name, RawShard.good (replaceFirst id
            { t with status := some "cancelled", updatedAt := now }
            (readTodosFile sh.content))⟩ :: rest := by
        simp [deleteTodo, hf]
      constructor
      · simp [deleteTodo, hf]
      · rw [hrw]
        simp only [getTodoById, readTodosFile_good]
        rw [find?_replaceFirst id _ hid _ _ hf]
    | none =>
      have h' : getTodoById rest id = some t := by
        simpa only [getTodoById, hf] using h
      have ih := deleteTodo_soft_of_found now id rest t h'
      constructor
      · simpa [deleteTodo, hf] using ih.1
      · simpa only [deleteTodo, hf, getTodoById] using ih.2

theorem deleteTodo_hard_of_found (now : Nat) (id : String) :
    ∀ store : List Shard, (storeIds store).Nodup →
      (∃ t, getTodoById store id = some t) →
      (deleteTodo now id true store).1 = some (DeleteResult.removed id) ∧
      getTodoById (deleteTodo now id true store).2 id = none
  | [] => by simp [getTodoById]
  | sh :: rest => by
    intro hn hex
    have hnl : ((readTodosFile sh.content).map (fun t => t.id)).Nodup := by
      have := hn
      simp only [storeIds, getAllTodos, List.map_append, List.nodup_append] at this
      exact this.1
    have hdisj : List.Disjoint ((readTodosFile sh.content).map (fun t => t.id))
        (storeIds rest) := by
      have := hn
      simp only [storeIds, getAllTodos, List.map_append, List.nodup_append] at this
      exact this.2.2
    cases hf : (readTodosFile sh.content).find? (fun x => x.id = id) with
    | some t0 =>
      have hid : t0.id = id := by simpa using List.find?_some hf
      have hrw : (deleteTodo now id true (sh :: rest)).2 =
          ⟨sh.name, RawShard.good
            ((readTodosFile sh.content).eraseP (fun x => x.id = id))⟩ :: rest := by
        simp [deleteTodo, hf]
      constructor
      · simp [deleteTodo, hf]
      · rw [hrw]
        simp only [getTodoById, readTodosFile_good]
        rw [find?_eraseP_of_nodup id _ hnl]
        refine getTodoById_eq_none rest id (fun y hy hyid => ?_)
        have h1 : id ∈ (readTodosFile sh.content).map (fun t => t.id) := by
          rw [← hid]
          exact List.mem_map_of_mem (fun t => t.id) (List.mem_of_find?_eq_some hf)
        have h2 : id ∈ storeIds rest := by
          rw [← hyid]
          exact List.mem_map_of_mem (fun t => t.id) hy
        exact hdisj h1 h2
    | none =>
      rcases hex with ⟨t, h⟩
      have h' : getTodoById rest id = some t := by
        simpa only [getTodoById, hf] using h
      have hn' : (storeIds rest).Nodup := by
        have := hn
        simp only [storeIds, getAllTodos, List.map_append, List.nodup_append] at this
        exact this.2.1
      have ih := deleteTodo_hard_of_found now id rest hn' ⟨t, h'⟩
      constructor
      · simpa [deleteTodo, hf] using ih.1
      · simpa only [deleteTodo, hf, getTodoById] using ih.2

/-! ### Facts about sequences of creates -/

theorem runCreatesRnd_ids (now : Nat) (rnd : Nat → Nat → Nat) :
    ∀ (ds : List TodoData) (j : Nat) (store : List Shard),
      ((runCreatesRnd now rnd ds j store).1).map (fun t => t.id) = genIds rnd ds j
  | [], _, _ => rfl
  | d :: rest, j, store => by
    simp only [runCreatesRnd, genIds, List.map_cons]
    rw [runCreatesRnd_ids now rnd rest (j + 1) _]
    rfl

theorem runCreatesRnd_perm (now : Nat) (rnd : Nat → Nat → Nat) :
    ∀ (ds : List TodoData) (j : Nat) (store : List Shard),
      List.Perm (getAllTodos (runCreatesRnd now rnd ds j store).2)
        ((runCreatesRnd now rnd ds j store).1 ++ getAllTodos store)
  | [], _, store => List.Perm.refl _
  | d :: rest, j, store => by
    simp only [runCreatesRnd]
    refine List.Perm.trans (runCreatesRnd_perm now rnd rest (j + 1) _) ?_
    refine List.Perm.trans (List.Perm.append_left _ (createTodo_perm _ now d store)) ?_
    exact List.perm_middle

/-! ### Facts about the filter predicate -/

theorem occursIn_nil : ∀ l : List Char, occursIn [] l = true
  | [] => rfl
  | _ :: cs => by simp [occursIn, leadsWith, occursIn_nil cs]

theorem jsIncludes_empty (s : String) : jsIncludes s "" = true := by
  simpa [jsIncludes, lowerStr] using occursIn_nil (lowerStr s).data

theorem critOk_eq_spec (crit field : Option String) (h : crit ≠ some "") :
    critOk crit field = critOkSpec crit field := by
  cases crit with
  | none => rfl
  | some s =>
    have hs : s ≠ "" := fun he => h (by rw [he])
    simp [critOk, critOkSpec, hs]

theorem keywordOk_eq_spec (crit content : Option String) :
    keywordOk crit content = keywordOkSpec crit content := by
  cases crit with
  | none => rfl
  | some k =>
    by_cases hk : k = ""
    · subst hk
      simp [keywordOk, keywordOkSpec, jsIncludes_empty]
    · simp [keywordOk, keywordOkSpec, hk]

theorem matchesFilters_eq_spec (f : Filters) (t : Todo)
    (h1 : f.status ≠ some "") (h2 : f.priority ≠ some "")
    (h3 : f.project ≠ some "") (h4 : f.conversation ≠ some "") :
    matchesFilters f t = matchesSpec f t := by
  simp only [matchesFilters, matchesSpec, critOk_eq_spec _ _ h1, critOk_eq_spec _ _ h2,
    critOk_eq_spec _ _ h3, critOk_eq_spec _ _ h4, keywordOk_eq_spec]

/-! ### Facts about the identifier generator -/

theorem hexMem : ∀ m, m < 16 → hexChars.contains (hexDigit m) = true := by decide

theorem variantOk : ∀ m, m < 16 →
    (hexDigit ((m &&& 3) ||| 8) == '8' || hexDigit ((m &&& 3) ||| 8) == '9' ||
     hexDigit ((m &&& 3) ||| 8) == 'a' || hexDigit ((m &&& 3) ||| 8) == 'b') = true := by
  decide

theorem generateUUID_data (rnd : Nat → Nat) :
    (generateUUID rnd).data =
      [hexDigit (rnd 0 % 16), hexDigit (rnd 1 % 16), hexDigit (rnd 2 % 16),
       hexDigit (rnd 3 % 16), hexDigit (rnd 4 % 16), hexDigit (rnd 5 % 16),
       hexDigit (rnd 6 % 16), hexDigit (rnd 7 % 16), '-',
       hexDigit (rnd 8 % 16), hexDigit (rnd 9 % 16), hexDigit (rnd 10 % 16),
       hexDigit (rnd 11 % 16), '-', '4',
       hexDigit (rnd 12 % 16), hexDigit (rnd 13 % 16), hexDigit (rnd 14 % 16), '-',
       hexDigit ((rnd 15 % 16) &&& 3 ||| 8),
       hexDigit (rnd 16 % 16), hexDigit (rnd 17 % 16), hexDigit (rnd 18 % 16), '-',
       hexDigit (rnd 19 % 16), hexDigit (rnd 20 % 16), hexDigit (rnd 21 % 16),
       hexDigit (rnd 22 % 16), hexDigit (rnd 23 % 16), hexDigit (rnd 24 % 16),
       hexDigit (rnd 25 % 16), hexDigit (rnd 26 % 16), hexDigit (rnd 27 % 16),
       hexDigit (rnd 28 % 16), hexDigit (rnd 29 % 16), hexDigit (rnd 30 % 16)] := rfl

theorem isUuidV4_generateUUID (rnd : Nat → Nat) : isUuidV4 (generateUUID rnd) = true := by
  have hx : ∀ n, hexChars.contains (hexDigit (n % 16)) = true := fun n =>
    hexMem (n % 16) (Nat.mod_lt n (by decide))
  have hy : (hexDigit ((rnd 15 % 16) &&& 3 ||| 8) == '8' ||
      hexDigit ((rnd 15 % 16) &&& 3 ||| 8) == '9' ||
      hexDigit ((rnd 15 % 16) &&& 3 ||| 8) == 'a' ||
      hexDigit ((rnd 15 % 16) &&& 3 ||| 8) == 'b') = true :=
    variantOk (rnd 15 % 16) (Nat.mod_lt (rnd 15) (by decide))
  simp only [isUuidV4, generateUUID_data, hx, hy, Bool.and_true, Bool.true_and, Bool.and_self]

theorem runCreatesRnd_all_uuid (now : Nat) (rnd : Nat → Nat → Nat) :
    ∀ (ds : List TodoData) (j : Nat) (store : List Shard),
      ((runCreatesRnd now rnd ds j store).1.all fun r => isUuidV4 r.id) = true
  | [], _, _ => rfl
  | d :: rest, j, store => by
    simp only [runCreatesRnd, List.all_cons, Bool.and_eq_true]
    exact ⟨isUuidV4_generateUUID _, runCreatesRnd_all_uuid now rnd rest (j + 1) _⟩

/-! ### Claim theorems -/

/-- C2, counterexample: `createTodo` performs no content validation.  With
`content` missing, and with `content` the empty string, it still creates a
record and persists it to the shard, instead of failing with `InvalidInput`
and persisting nothing as the claim states. -/
theorem create_empty_content_cex :
    (createTodo "u0" 0 ⟨none, none, none, none, none⟩ []).1.content = none
    ∧ getAllTodos (createTodo "u0" 0 ⟨none, none, none, none, none⟩ []).2 =
        [(createTodo "u0" 0 ⟨none, none, none, none, none⟩ []).1]
    ∧ (createTodo "u1" 0 ⟨some "", none, none, none, none⟩ []).1.content = some ""
    ∧ getAllTodos (createTodo "u1" 0 ⟨some "", none, none, none, none⟩ []).2 =
        [(createTodo "u1" 0 ⟨some "", none, none, none, none⟩ []).1] := by
  refine ⟨rfl, by decide, rfl, by decide⟩

/-- C2, amended: `createTodo` never fails and validates nothing: for every
input, including a missing or empty `content`, it returns a record whose
`content` is exactly the supplied value and persists that record in the
store (there is no `InvalidInput` failure path in the code; a missing
`content` is only rejected by the transport schema, outside the store). -/
theorem create_no_validation (uuid : String) (now : Nat) (d : TodoData) (store : List Shard) :
    (createTodo uuid now d store).1.content = d.content
    ∧ (createTodo uuid now d store).1 ∈ getAllTodos (createTodo uuid now d store).2 :=
  ⟨rfl, createTodo_mem uuid now d store⟩

/-- C6 (confirmed): shard resolution is a pure function of the project
value: an absent or empty `project` routes to the default shard, any other
`project` to the shard named by replacing every character outside
`[A-Za-z0-9]` with `-`; a record created by `createTodo` is stored in the
shard that function names, so create calls whose projects sanitize to the
same string store their records in the same shard. -/
theorem shard_routing :
    shardFor none = "default"
    ∧ shardFor (some "") = "default"
    ∧ (∀ p : String, p ≠ "" → shardFor (some p) = sanitizeProject p)
    ∧ (∀ p : String, (sanitizeProject p).data =
        p.data.map (fun c => if isShardSafe c then c else '-'))
    ∧ (∀ (uuid : String) (now : Nat) (d : TodoData) (store : List Shard),
        (createTodo uuid now d store).1 ∈
          readShard (createTodo uuid now d store).2 (shardFor d.project)) := by
  refine ⟨rfl, rfl, ?_, fun p => rfl, ?_⟩
  · intro p hp
    simp [shardFor, hp]
  · intro uuid now d store
    show (createTodo uuid now d store).1 ∈
      readShard (writeShard store (shardFor d.project)
        (readShard store (shardFor d.project) ++ [(createTodo uuid now d store).1]))
        (shardFor d.project)
    rw [readShard_writeShard]
    exact List.mem_append_right _ (List.mem_singleton.mpr rfl)

/-- C6 witness: the two project values of the spec example sanitize to the
same shard id. -/
theorem shard_routing_witness :
    shardFor (some "My Project!") = sanitizeProject "My Project!"
    ∧ shardFor (some "My_Project ") = sanitizeProject "My_Project "
    ∧ sanitizeProject "My Project!" = "My-Project-"
    ∧ sanitizeProject "My_Project " = "My-Project-" :=
  ⟨shard_routing.2.2.1 "My Project!" (by decide),
   shard_routing.2.2.1 "My_Project " (by decide), by decide, by decide⟩

/-- C8, counterexample: a corrupt shard is not reported to the caller — the
read result is indistinguishable from an empty shard — and writes to it are
not refused: a create routed to a corrupt shard goes through and replaces
the corrupt content, contrary to the claim that the failure is surfaced
per-operation and that writes are refused until manual repair. -/
theorem corrupt_shard_not_refused_cex :
    readTodosFile RawShard.corrupt = readTodosFile (RawShard.good [])
    ∧ (createTodo "u0" 0 ⟨none, none, none, none, none⟩
        [⟨"default", RawShard.corrupt⟩]).2 =
      [⟨"default", RawShard.good
        [(createTodo "u0" 0 ⟨none, none, none, none, none⟩
          [⟨"default", RawShard.corrupt⟩]).1]⟩] := by
  refine ⟨rfl, by decide⟩

/-- C8, amended: a shard whose content is undecodable is degraded to empty
without crashing: reads return the empty list, and every read path
(`getTodoById`, `getAllTodos`, `filterTodos`) behaves as if the shard were
absent; the condition is only logged, not surfaced as a typed failure, and
writes are not refused — a create routed to any shard, corrupt or not,
replaces that shard content with the previous readable records plus the new
one. -/
theorem corrupt_shard_degrades :
    readTodosFile RawShard.corrupt = ([] : List Todo)
    ∧ (∀ (name : String) (rest : List Shard),
        getAllTodos (⟨name, RawShard.corrupt⟩ :: rest) = getAllTodos rest)
    ∧ (∀ (id name : String) (rest : List Shard),
        getTodoById (⟨name, RawShard.corrupt⟩ :: rest) id = getTodoById rest id)
    ∧ (∀ (f : Filters) (name : String) (rest : List Shard),
        filterTodos f (⟨name, RawShard.corrupt⟩ :: rest) = filterTodos f rest)
    ∧ (∀ (uuid : String) (now : Nat) (d : TodoData) (store : List Shard),
        readShard (createTodo uuid now d store).2 (shardFor d.project) =
          readShard store (shardFor d.project) ++ [(createTodo uuid now d store).1]) := by
  refine ⟨rfl, ?_, ?_, ?_, ?_⟩
  · intro name rest
    simp [getAllTodos, readTodosFile]
  · intro id name rest
    simp [getTodoById, readTodosFile]
  · intro f name rest
    simp [filterTodos, getAllTodos, readTodosFile]
  · intro uuid now d store
    show readShard (writeShard store (shardFor d.project)
        (readShard store (shardFor d.project) ++ [(createTodo uuid now d store).1]))
        (shardFor d.project) = _
    rw [readShard_writeShard]

/-- C9, counterexample: the operation trace of `writeTodosFile` is a single
in-place whole-file write — there is no write to a temporary location and
no rename, so the write is not the temp-and-atomic-publish sequence the
claim asserts. -/
theorem write_no_rename_cex :
    writeTodosFileOps "default.json" [] = [FsOp.writeWholeFile "default.json" []]
    ∧ ((writeTodosFileOps "default.json" []).all
        fun op => !isRenameOp op && !isTempWriteOp op) = true
    ∧ writeTodosFileOps "default.json" [] ≠ atomicWriteOps "default.json" [] := by
  refine ⟨rfl, rfl, by decide⟩

/-- C9, amended: every shard write replaces the entire shard content with a
single in-place `fs.writeFile` of the full serialized record list; no
temporary file and no rename are involved, so atomicity against a
concurrent reader is not provided by the write mechanism. -/
theorem write_in_place (path : String) (todos : List Todo) :
    writeTodosFileOps path todos = [FsOp.writeWholeFile path todos]
    ∧ ((writeTodosFileOps path todos).all
        fun op => !isRenameOp op && !isTempWriteOp op) = true :=
  ⟨rfl, rfl⟩

/-- C10 (confirmed): every identifier the store generates is a 36-character
UUID version-4 string — hyphens at indices 8, 13, 18 and 23, the character
`4` at index 14, one of `8/9/a/b` at index 19, lowercase hexadecimal digits
everywhere else — whatever the random draws are, and hence every record a
sequence of creates returns carries such an identifier. -/
theorem uuid_v4_format (rnd : Nat → Nat) (now : Nat) (rnds : Nat → Nat → Nat)
    (ds : List TodoData) (j : Nat) (store : List Shard) :
    isUuidV4 (generateUUID rnd) = true
    ∧ ((runCreatesRnd now rnds ds j store).1.all fun r => isUuidV4 r.id) = true :=
  ⟨isUuidV4_generateUUID rnd, runCreatesRnd_all_uuid now rnds ds j store⟩

/-- C1, counterexample: the store never checks a generated identifier
against existing records, so when the random draws repeat — here the
constant-zero stream for both calls — two `createTask` calls return records
with the same `id`, contradicting the claimed unconditional uniqueness. -/
theorem create_id_collision_cex :
    ((runCreatesRnd 0 (fun _ _ => 0)
        [⟨none, none, none, none, none⟩, ⟨none, none, none, none, none⟩] 0 []).1.map
      fun t => t.id) =
      ["00000000-0000-4000-8000-000000000000", "00000000-0000-4000-8000-000000000000"]
    ∧ ¬ (((runCreatesRnd 0 (fun _ _ => 0)
        [⟨none, none, none, none, none⟩, ⟨none, none, none, none, none⟩] 0 []).1.map
      fun t => t.id)).Nodup := by
  refine ⟨by decide, by decide⟩

/-- C1, amended: the store performs no collision check, so identifier
uniqueness is conditional on the generator: whenever the identifiers the
random streams produce for a sequence of `createTask` calls are pairwise
distinct and distinct from every identifier already stored, no two returned
records share an `id`, and the identifiers are unique across the entire
store (every shard) afterwards. -/
theorem create_unique_ids (now : Nat) (rnd : Nat → Nat → Nat) (ds : List TodoData)
    (j : Nat) (store : List Shard)
    (h : (genIds rnd ds j ++ storeIds store).Nodup) :
    (((runCreatesRnd now rnd ds j store).1).map (fun t => t.id)).Nodup
    ∧ (storeIds (runCreatesRnd now rnd ds j store).2).Nodup := by
  have hids := runCreatesRnd_ids now rnd ds j store
  constructor
  · rw [hids]
    exact (List.nodup_append.mp h).1
  · have hpm : List.Perm (storeIds (runCreatesRnd now rnd ds j store).2)
        (genIds rnd ds j ++ storeIds store) := by
      have hmapped := (runCreatesRnd_perm now rnd ds j store).map (fun t => t.id)
      rw [List.map_append, hids] at hmapped
      exact hmapped
    exact hpm.nodup_iff.mpr h

/-- C1 witness for the amended claim: two creates whose draw streams differ
produce distinct identifiers, and the resulting store has no duplicate
identifier in any shard. -/
theorem create_unique_ids_witness :
    (((runCreatesRnd 0 (fun j _ => j)
        [⟨none, none, none, none, none⟩, ⟨none, none, none, none, none⟩] 0 []).1).map
      (fun t => t.id)).Nodup
    ∧ (storeIds (runCreatesRnd 0 (fun j _ => j)
        [⟨none, none, none, none, none⟩, ⟨none, none, none, none, none⟩] 0 []).2).Nodup :=
  create_unique_ids 0 (fun j _ => j)
    [⟨none, none, none, none, none⟩, ⟨none, none, none, none, none⟩] 0 [] (by decide)

/-- C3 (confirmed): for an existing record, `updateTask` returns and
persists exactly the merge of the explicitly supplied fields into the old
record: a supplied field overwrites (a supplied empty string included), an
absent field is untouched, `updatedAt` is always refreshed, `id` and
`createdAt` keep their prior values. -/
theorem update_partial_merge (now : Nat) (id : String) (u : TodoData) (store : List Shard)
    (t : Todo) (h : getTodoById store id = some t) :
    (updateTodo now id u store).1 = some (mergeTodo u now t)
    ∧ getTodoById (updateTodo now id u store).2 id = some (mergeTodo u now t)
    ∧ (mergeTodo u now t).id = t.id
    ∧ (mergeTodo u now t).createdAt = t.createdAt
    ∧ (mergeTodo u now t).updatedAt = now
    ∧ (∀ v, u.content = some v → (mergeTodo u now t).content = some v)
    ∧ (u.content = none → (mergeTodo u now t).content = t.content)
    ∧ (∀ v, u.status = some v → (mergeTodo u now t).status = some v)
    ∧ (u.status = none → (mergeTodo u now t).status = t.status)
    ∧ (∀ v, u.priority = some v → (mergeTodo u now t).priority = some v)
    ∧ (u.priority = none → (mergeTodo u now t).priority = t.priority)
    ∧ (∀ v, u.project = some v → (mergeTodo u now t).project = some v)
    ∧ (u.project = none → (mergeTodo u now t).project = t.project)
    ∧ (∀ v, u.conversation = some v → (mergeTodo u now t).conversation = some v)
    ∧ (u.conversation = none → (mergeTodo u now t).conversation = t.conversation) := by
  have hm := updateTodo_of_found now id u store t h
  refine ⟨hm.1, hm.2, rfl, rfl, rfl, ?_, ?_, ?_, ?_, ?_, ?_, ?_, ?_, ?_, ?_⟩
  all_goals
    first
    | (intro v hv; simp [mergeTodo, pick, hv])
    | (intro h0; simp [mergeTodo, pick, h0])

/-- C3 witness: updating only `status` on a concrete one-record store
changes exactly `status` and `updatedAt`. -/
theorem update_partial_merge_witness :
    (updateTodo 5 "id1" ⟨none, some "completed", none, none, none⟩
        [⟨"default", RawShard.good
          [⟨"id1", some "c", some "pending", some "medium", none, none, 0, 0⟩]⟩]).1 =
      some (mergeTodo ⟨none, some "completed", none, none, none⟩ 5
        ⟨"id1", some "c", some "pending", some "medium", none, none, 0, 0⟩) :=
  (update_partial_merge 5 "id1" ⟨none, some "completed", none, none, none⟩
    [⟨"default", RawShard.good
      [⟨"id1", some "c", some "pending", some "medium", none, none, 0, 0⟩]⟩]
    ⟨"id1", some "c", some "pending", some "medium", none, none, 0, 0⟩ (by decide)).1

/-- C4 (confirmed): on a store with unique identifiers, hard delete removes
the record — the result is `{id, deleted: true}` and a subsequent lookup
returns not-found; soft delete returns and persists the record with
`status = cancelled` and a refreshed `updatedAt`, still retrievable; and
when no record matches, delete returns not-found and leaves the store
unchanged. -/
theorem delete_soft_hard (now : Nat) (id : String) (store : List Shard)
    (hN : (storeIds store).Nodup) :
    (∀ t, getTodoById store id = some t →
      (deleteTodo now id true store).1 = some (DeleteResult.removed id)
      ∧ getTodoById (deleteTodo now id true store).2 id = none
      ∧ (deleteTodo now id false store).1 =
          some (DeleteResult.softened { t with status := some "cancelled", updatedAt := now })
      ∧ getTodoById (deleteTodo now id false store).2 id =
          some { t with status := some "cancelled", updatedAt := now }
      ∧ ({ t with status := some "cancelled", updatedAt := now } : Todo).status =
          some "cancelled")
    ∧ (getTodoById store id = none →
        ∀ hard, deleteTodo now id hard store = (none, store)) := by
  constructor
  · intro t ht
    have hh := deleteTodo_hard_of_found now id store hN ⟨t, ht⟩
    have hs := deleteTodo_soft_of_found now id store t ht
    exact ⟨hh.1, hh.2, hs.1, hs.2, rfl⟩
  · intro hn hard
    exact deleteTodo_not_found now id hard store hn

/-- C4 witness: hard delete on a concrete one-record store reports the
deletion and makes the record unfindable. -/
theorem delete_soft_hard_witness :
    (deleteTodo 7 "id1" true
        [⟨"default", RawShard.good
          [⟨"id1", some "c", some "pending", some "medium", none, none, 0, 0⟩]⟩]).1 =
      some (DeleteResult.removed "id1")
    ∧ getTodoById (deleteTodo 7 "id1" true
        [⟨"default", RawShard.good
          [⟨"id1", some "c", some "pending", some "medium", none, none, 0, 0⟩]⟩]).2 "id1" =
      none := by
  have h := (delete_soft_hard 7 "id1"
      [⟨"default", RawShard.good
        [⟨"id1", some "c", some "pending", some "medium", none, none, 0, 0⟩]⟩]
      (by decide)).1
     ⟨"id1", some "c", some "pending", some "medium", none, none, 0, 0⟩ (by decide)
  exact ⟨h.1, h.2.1⟩

/-- C5 (confirmed): when the generated identifier is fresh, `createTask`
followed by a lookup of the returned id yields exactly the created record,
whose `content`/`status`/`priority`/`project`/`conversation` equal the
input with `status` defaulting to `pending` and `priority` to `medium`
when omitted. -/
theorem create_get_round_trip (uuid : String) (now : Nat) (inp : CreateInput)
    (store : List Shard) (hcontent : inp.content ≠ "")
    (hfresh : ∀ t ∈ getAllTodos store, t.id ≠ uuid) :
    getTodoById (createTask uuid now inp store).2 (createTask uuid now inp store).1.id =
      some (createTask uuid now inp store).1
    ∧ (createTask uuid now inp store).1.content = some inp.content
    ∧ (createTask uuid now inp store).1.status = some (inp.status.getD "pending")
    ∧ (createTask uuid now inp store).1.priority = some (inp.priority.getD "medium")
    ∧ (createTask uuid now inp store).1.project = inp.project
    ∧ (createTask uuid now inp store).1.conversation = inp.conversation
    ∧ (inp.status = none → (createTask uuid now inp store).1.status = some "pending")
    ∧ (inp.priority = none → (createTask uuid now inp store).1.priority = some "medium") := by
  refine ⟨?_, rfl, rfl, rfl, rfl, rfl, ?_, ?_⟩
  · exact getTodoById_createTodo_fresh uuid now _ store hfresh
  · intro h0
    show some (inp.status.getD "pending") = some "pending"
    rw [h0]
    rfl
  · intro h0
    show some (inp.priority.getD "medium") = some "medium"
    rw [h0]
    rfl

/-- C5 witness: a concrete create on the empty store, with defaults
applied, rounds-trip through the lookup. -/
theorem create_get_round_trip_witness :
    getTodoById (createTask "u" 0 ⟨"task", none, none, none, none⟩ []).2
        (createTask "u" 0 ⟨"task", none, none, none, none⟩ []).1.id =
      some (createTask "u" 0 ⟨"task", none, none, none, none⟩ []).1
    ∧ (createTask "u" 0 ⟨"task", none, none, none, none⟩ []).1.status = some "pending" :=
  have h := create_get_round_trip "u" 0 ⟨"task", none, none, none, none⟩ []
    (by decide) (fun t ht => absurd ht (List.not_mem_nil t))
  ⟨h.1, h.2.2.2.2.2.2.1 rfl⟩

/-- C7, counterexample: a supplied-but-empty `project` criterion is treated
as absent by the code (falsy guard), so `filterTodos` returns a record that
does not satisfy exact equality with the supplied criterion, contradicting
the claim that every supplied criterion constrains by exact equality. -/
theorem filter_empty_criterion_cex :
    filterTodos ⟨none, none, some "", none, none⟩
        [⟨"x", RawShard.good
          [⟨"i1", some "c", some "pending", some "medium", some "x", none, 0, 0⟩]⟩] =
      [⟨"i1", some "c", some "pending", some "medium", some "x", none, 0, 0⟩]
    ∧ matchesSpec ⟨none, none, some "", none, none⟩
        ⟨"i1", some "c", some "pending", some "medium", some "x", none, 0, 0⟩ = false := by
  refine ⟨by decide, by decide⟩

/-- C7, amended: for every criteria object whose supplied equality criteria
(`status`, `priority`, `project`, `conversation`) are non-empty strings,
`filterTodos` returns exactly the records of the all-shards listing that
satisfy the conjunction of the supplied criteria — equality criteria by
exact equality, `keyword` by case-insensitive substring containment in
`content` — in listing order; a supplied empty-string equality criterion
is instead treated as absent by the code. -/
theorem filter_conjunction_amended (f : Filters) (store : List Shard)
    (h1 : f.status ≠ some "") (h2 : f.priority ≠ some "")
    (h3 : f.project ≠ some "") (h4 : f.conversation ≠ some "") :
    filterTodos f store = (getAllTodos store).filter (matchesSpec f) := by
  have hfun : matchesFilters f = matchesSpec f :=
    funext (fun t => matchesFilters_eq_spec f t h1 h2 h3 h4)
  rw [filterTodos, hfun]

/-- C7 witness: the spec example — a `priority` filter on two concrete
records — computed through the amended theorem. -/
theorem filter_conjunction_witness :
    filterTodos ⟨none, some "high", none, none, none⟩
        [⟨"default", RawShard.good
          [⟨"i1", some "fix bug", some "pending", some "high", none, none, 0, 0⟩,
           ⟨"i2", some "write docs", some "pending", some "low", none, none, 0, 0⟩]⟩] =
      (getAllTodos
        [⟨"default", RawShard.good
          [⟨"i1", some "fix bug", some "pending", some "high", none, none, 0, 0⟩,
           ⟨"i2", some "write docs", some "pending", some "low", none, none, 0, 0⟩]⟩]).filter
        (matchesSpec ⟨none, some "high", none, none, none⟩) :=
  filter_conjunction_amended ⟨none, some "high", none, none, none⟩
    [⟨"default", RawShard.good
      [⟨"i1", some "fix bug", some "pending", some "high", none, none, 0, 0⟩,
       ⟨"i2", some "write docs", some "pending", some "low", none, none, 0, 0⟩]⟩]
    (by decide) (by decide) (by decide) (by decide)

end TodoServer
